import Mathlib

/-!
Verification development for the proplot subplot-geometry engine
(src/proplot/subplots.py). The Python source is shallowly embedded:
physical lengths are rationals, Python lists are Lean lists, fallible
code returns Except. Exception classes are modelled by kind only
(messages are formatting noise and are dropped).
-/

/-- Kinds of Python exceptions raised by the embedded code. -/
inductive PyErr where
  | valueError
  | runtimeError
  | indexError
  | zeroDivisionError
  deriving DecidableEq, Repr

/-- Modelled from the spec: the external unit-conversion interface
(proplot.utils.units, not under src/). Per spec section 6, numeric values
are already in physical units and None passes through, so on the
Option-of-rational inputs used here the conversion is the identity. -/
def units (v : Option ℚ) : Option ℚ := v

/-- Modelled from the spec: proplot.utils._notNone (not under src/),
which returns the first argument that is not None. Binary form used by
the geometry code. -/
def _notNone (a : Option ℚ) (b : ℚ) : ℚ := a.getD b

/-! ## ExpandedGrid: FlexibleGridSpec index translation (subplots.py 320-441)

A logical R x C grid is drawn as a (2R-1) x (2C-1) physical grid whose odd
rows/columns are spacing slots.  `_normalize` turns a user index or slice
over the active (logical) dimension into an inclusive logical index pair,
`_positem` doubles a logical index into a physical one (with the negative-index
rule of the source), and `get_active_rows_columns` maps physical indices
back to logical ones by floor division by 2. -/

/-- A gridspec index: a Python int or a step-1 slice with optional bounds. -/
inductive GsKey where
  | int (i : ℤ)
  | slice (start stop : Option ℤ)
  deriving DecidableEq, Repr

/-- Python `slice(start, stop).indices(n)` for step 1: missing bounds
default to 0 and n, negative bounds count from the end, and everything is
clamped into [0, n]. -/
def sliceIndices (start stop : Option ℤ) (n : ℕ) : ℤ × ℤ :=
  let lo : ℤ := match start with
    | none => 0
    | some v => if v < 0 then max (v + n) 0 else min v n
  let hi : ℤ := match stop with
    | none => (n : ℤ)
    | some v => if v < 0 then max (v + n) 0 else min v n
  (lo, hi)

/-- FlexibleGridSpec._normalize (subplots.py 429-441): transform a gridspec
index into an inclusive logical index pair, raising IndexError for empty
slices and out-of-range integers. -/
def _normalize (key : GsKey) (size : ℕ) : Except PyErr (ℤ × ℤ) :=
  match key with
  | .slice s e =>
    let p := sliceIndices s e size
    if p.2 > p.1 then .ok (p.1, p.2 - 1) else .error .indexError
  | .int k =>
    let k' := if k < 0 then k + size else k
    if 0 ≤ k' ∧ k' < (size : ℤ) then .ok (k', k') else .error .indexError

/-- FlexibleGridSpec._positem (subplots.py 421-427): double a logical index
into a physical index, keeping -1 as -1, -2 as -3, and so on. -/
def _positem (size : ℤ) : ℤ :=
  if size < 0 then 2 * (size + 1) - 1 else size * 2

/-- The physical-to-logical direction used by
FlexibleSubplotSpec.get_active_rows_columns (subplots.py 333-345): Python
floor division of a physical index by 2. -/
def fromPhysical (p : ℤ) : ℤ := Int.fdiv p 2

/-! ## Self-contained list primitives mirroring Python list behaviour -/

/-- Positional lookup (list element at index n, if present). -/
def listNth? {α : Type} : List α → ℕ → Option α
  | [], _ => none
  | a :: _, 0 => some a
  | _ :: l, n + 1 => listNth? l n

/-- Positional in-place update; out-of-range indices leave the list as is
(validity is checked separately before calling this). -/
def listSet {α : Type} : List α → ℕ → α → List α
  | [], _, _ => []
  | _ :: l, 0, b => b :: l
  | a :: l, n + 1, b => a :: listSet l n b

/-- Python list.insert with an already-clamped non-negative position:
inserting beyond the end appends. -/
def listInsertAt {α : Type} : List α → ℕ → α → List α
  | l, 0, b => b :: l
  | [], _ + 1, b => [b]
  | a :: l, n + 1, b => a :: listInsertAt l n b

/-- Resolve a Python index (possibly negative) against a list of length n;
none models an IndexError. -/
def pyIdx? (n : ℕ) (i : ℤ) : Option ℕ :=
  if 0 ≤ i ∧ i < (n : ℤ) then some i.toNat
  else if i < 0 ∧ 0 ≤ i + (n : ℤ) then some (i + (n : ℤ)).toNat
  else none

/-- Python `l[i]` for reading, with negative-index wrapping. -/
def pyGet? {α : Type} (l : List α) (i : ℤ) : Option α :=
  match pyIdx? l.length i with
  | some k => listNth? l k
  | none => none

/-- Python `l[i] = a`, with negative-index wrapping; IndexError if out of
range. -/
def pySet {α : Type} (l : List α) (i : ℤ) (a : α) : Except PyErr (List α) :=
  match pyIdx? l.length i with
  | some k => .ok (listSet l k a)
  | none => .error .indexError

/-- Python `l.insert(i, a)`: negative positions count from the end and all
positions are clamped into [0, len]. -/
def pyInsert {α : Type} (l : List α) (i : ℤ) (a : α) : List α :=
  let p : ℕ := if i < 0 then (max (i + (l.length : ℤ)) 0).toNat
               else min i.toNat l.length
  listInsertAt l p a

/-! ## GeometrySolver: _subplots_geometry (subplots.py 574-712)

Inputs live in a SubplotsKw record mirroring the keyword dictionary the
source threads around.  Panel toggles are the strings "", "l", "r", "b",
"t", "f"; "" marks a main (axes) slot.  The solver partitions slots into
main and panel slots, computes the reference-cell fractions, solves the
one remaining degree of freedom fixed by the aspect ratio, checks for
negative room, rescales the main ratios to absolute units in place, and
converts margins to figure-relative form. -/

/-- Keyword state passed to the geometry solve (subplots.py 582-594).
aspect is a scalar or a (w, h) pair as in the source. -/
structure SubplotsKw where
  nrows : ℕ
  ncols : ℕ
  aspect : ℚ ⊕ (ℚ × ℚ)
  xref : ℕ × ℕ
  yref : ℕ × ℕ
  width : Option ℚ
  height : Option ℚ
  axwidth : Option ℚ
  axheight : Option ℚ
  wspace : List ℚ
  hspace : List ℚ
  wratios : List ℚ
  hratios : List ℚ
  left : ℚ
  right : ℚ
  top : ℚ
  bottom : ℚ
  wpanels : List String
  hpanels : List String
  deriving DecidableEq, Repr

/-- The gridspec keyword args returned by the solve (subplots.py 705-710). -/
structure GridspecKw where
  ncols : ℕ
  nrows : ℕ
  wspace : List ℚ
  hspace : List ℚ
  width_ratios : List ℚ
  height_ratios : List ℚ
  left : ℚ
  bottom : ℚ
  right : ℚ
  top : ℚ
  deriving DecidableEq, Repr

/-- Ratios at main (empty-tag) slots, in order (subplots.py 614-627). -/
def mainRatios : List ℚ → List String → List ℚ
  | [], _ => []
  | _, [] => []
  | r :: rs, p :: ps =>
      if p = "" then r :: mainRatios rs ps else mainRatios rs ps

/-- Ratios at panel (non-empty-tag) slots, in order (subplots.py 628-629). -/
def panelRatios : List ℚ → List String → List ℚ
  | [], _ => []
  | _, [] => []
  | r :: rs, p :: ps =>
      if p = "" then panelRatios rs ps else r :: panelRatios rs ps

/-- Indices of main slots (subplots.py 614-616). -/
def mainIdxs (panels : List String) : List ℕ :=
  (List.range panels.length).filter (fun i => panels.getD i "" = "")

/-- Tags at which the main-space walk of subplots.py 621 stops: the Python
test is string containment `panels[idx + offset] not in "rbf"`, and on the
single-character tag alphabet the substrings of "rbf" are "", "r", "b",
"f". -/
def stopTag (s : String) : Bool :=
  s = "" || s = "r" || s = "b" || s = "f"

/-- Fuel-bounded version of the offset-searching while loop of
subplots.py 620-622.  Out-of-range reads yield the default "" (a stop
tag); the source would raise IndexError there, which no well-formed input
reaches because every non-final main slot is followed by another main
slot. -/
def spaceOffsetGo (panels : List String) (idx : ℕ) : ℕ → ℕ → ℕ
  | 0, off => off
  | fuel + 1, off =>
      if stopTag (panels.getD (idx + off) "") then off
      else spaceOffsetGo panels idx fuel (off + 1)

/-- Offset from a main slot to just past its trailing l/t panels. -/
def spaceOffset (panels : List String) (idx : ℕ) : ℕ :=
  spaceOffsetGo panels idx panels.length 1

/-- Indices of gaps counted as main-axes spaces (subplots.py 617-624):
for every main slot but the last, walk right over non-stop tags and take
the gap just before the stop. -/
def spaceIdxs (panels : List String) : List ℕ :=
  (mainIdxs panels).dropLast.map (fun i => i + spaceOffset panels i - 1)

/-- Gap sizes at main-space indices (subplots.py 630-631). -/
def mainSpaces (spaces : List ℚ) (panels : List String) : List ℚ :=
  (spaceIdxs panels).map (fun i => spaces.getD i 0)

/-- Python slice sum `sum(l[a:b])` for non-negative bounds. -/
def sliceSum (l : List ℚ) (a b : ℕ) : ℚ := ((l.drop a).take (b - a)).sum

/-- Aspect normalization (subplots.py 646-647): a (w, h) pair becomes w/h,
raising ZeroDivisionError when h is zero. -/
def resolveAspect : ℚ ⊕ (ℚ × ℚ) → Except PyErr ℚ
  | .inl a => .ok a
  | .inr p => if p.2 = 0 then .error .zeroDivisionError else .ok (p.1 / p.2)

/-- Write-back of rescaled main ratios (subplots.py 691-696) with the main
sum supplied: each main slot r becomes total * r / s, panel slots are kept
unchanged. -/
def writeBackS (total s : ℚ) : List ℚ → List String → List ℚ
  | [], _ => []
  | l, [] => l
  | r :: rs, p :: ps =>
      (if p = "" then total * r / s else r) :: writeBackS total s rs ps

/-- Write-back of rescaled main ratios: main slots are rescaled so they
sum to total, panel slots keep their literal fixed widths. -/
def writeBack (total : ℚ) (ratios : List ℚ) (panels : List String) : List ℚ :=
  writeBackS total (mainRatios ratios panels).sum ratios panels

/-- The width/height/axwidth/axheight resolution of subplots.py 649-683,
returning (axwidth_all, axheight_all, width, height).  Exactly one degree
of freedom is fixed by the aspect ratio; the division by a zero aspect in
the auto-height paths models the ZeroDivisionError of `axwidth/aspect`. -/
def solveDims (rcw aspect : ℚ) (nrowsMain ncolsMain : ℕ)
    (dx dy rwr rhr rwsp rhsp : ℚ)
    (sumWspace sumHspace sumWpanels sumHpanels : ℚ)
    (left right top bottom : ℚ)
    (width0 height0 axwidth0 axheight0 : Option ℚ) :
    Except PyErr (ℚ × ℚ × ℚ × ℚ) :=
  match width0, height0 with
  | some w, some h =>
      -- both figure dims given (subplots.py 667-673); aspect ignored
      .ok (w - left - right - sumWspace - sumWpanels,
           h - top - bottom - sumHspace - sumHpanels, w, h)
  | some w, none =>
      -- width given, auto height (subplots.py 671-673 then 676-679)
      let awAll := w - left - right - sumWspace - sumWpanels
      let aw := awAll * dx * rwr / ncolsMain + rwsp
      if aspect = 0 then .error .zeroDivisionError else
      let ah := aw / aspect
      let ahAll := nrowsMain * (ah - rhsp) / (dy * rhr)
      .ok (awAll, ahAll, w, ahAll + top + bottom + sumHspace + sumHpanels)
  | none, some h =>
      -- height given, auto width (subplots.py 668-670 then 680-683)
      let ahAll := h - top - bottom - sumHspace - sumHpanels
      let ah := ahAll * dy * rhr / nrowsMain + rhsp
      let aw := ah * aspect
      let awAll := ncolsMain * (aw - rwsp) / (dx * rwr)
      .ok (awAll, ahAll, awAll + left + right + sumWspace + sumWpanels, h)
  | none, none =>
      -- no figure dims: work from the reference axes (subplots.py 654-666)
      match axwidth0, axheight0 with
      | none, none =>
          -- default reference axwidth from configuration, auto height
          let awAll := ncolsMain * (rcw - rwsp) / (dx * rwr)
          let w := awAll + left + right + sumWspace + sumWpanels
          if aspect = 0 then .error .zeroDivisionError else
          let ah := rcw / aspect
          let ahAll := nrowsMain * (ah - rhsp) / (dy * rhr)
          .ok (awAll, ahAll, w, ahAll + top + bottom + sumHspace + sumHpanels)
      | some aw, none =>
          -- axwidth given, auto height
          let awAll := ncolsMain * (aw - rwsp) / (dx * rwr)
          let w := awAll + left + right + sumWspace + sumWpanels
          if aspect = 0 then .error .zeroDivisionError else
          let ah := aw / aspect
          let ahAll := nrowsMain * (ah - rhsp) / (dy * rhr)
          .ok (awAll, ahAll, w, ahAll + top + bottom + sumHspace + sumHpanels)
      | none, some ah =>
          -- axheight given, auto width
          let ahAll := nrowsMain * (ah - rhsp) / (dy * rhr)
          let h := ahAll + top + bottom + sumHspace + sumHpanels
          let aw := ah * aspect
          let awAll := ncolsMain * (aw - rwsp) / (dx * rwr)
          .ok (awAll, ahAll, awAll + left + right + sumWspace + sumWpanels, h)
      | some aw, some ah =>
          -- both axes dims given; both auto flags reset (subplots.py 665-666)
          let ahAll := nrowsMain * (ah - rhsp) / (dy * rhr)
          let awAll := ncolsMain * (aw - rwsp) / (dx * rwr)
          .ok (awAll, ahAll,
               awAll + left + right + sumWspace + sumWpanels,
               ahAll + top + bottom + sumHspace + sumHpanels)

/-- Final assembly (subplots.py 684-712): negative-room checks, ratio
write-back (mutating the ratio arrays held in the keyword state), and
figure-relative margins.  A zero figure dimension would make the margin
division raise ZeroDivisionError. -/
def finishGeometry (kw : SubplotsKw) (awAll ahAll w h : ℚ) :
    Except PyErr ((ℚ × ℚ) × GridspecKw × SubplotsKw) :=
  if awAll < 0 then .error .valueError
  else if ahAll < 0 then .error .valueError
  else if w = 0 ∨ h = 0 then .error .zeroDivisionError
  else
    let wratiosNew := writeBack awAll kw.wratios kw.wpanels
    let hratiosNew := writeBack ahAll kw.hratios kw.hpanels
    .ok ((w, h),
      { ncols := kw.ncols, nrows := kw.nrows,
        wspace := kw.wspace, hspace := kw.hspace,
        width_ratios := wratiosNew, height_ratios := hratiosNew,
        left := kw.left / w, bottom := kw.bottom / h,
        right := 1 - kw.right / w, top := 1 - kw.top / h },
      { kw with wratios := wratiosNew, hratios := hratiosNew })

/-- Reference-cell column span denominator term dx = x2 - x1 + 1
(subplots.py 639). -/
def dxOf (kw : SubplotsKw) : ℚ := (kw.xref.2 : ℚ) - (kw.xref.1 : ℚ) + 1

/-- Reference-cell row span denominator term dy = y2 - y1 + 1
(subplots.py 639). -/
def dyOf (kw : SubplotsKw) : ℚ := (kw.yref.2 : ℚ) - (kw.yref.1 : ℚ) + 1

/-- Main-space sum inside the reference column range, rwspace
(subplots.py 640). -/
def rwspOf (kw : SubplotsKw) : ℚ :=
  sliceSum (mainSpaces kw.wspace kw.wpanels) kw.xref.1 kw.xref.2

/-- Main-space sum inside the reference row range, rhspace
(subplots.py 641). -/
def rhspOf (kw : SubplotsKw) : ℚ :=
  sliceSum (mainSpaces kw.hspace kw.hpanels) kw.yref.1 kw.yref.2

/-- Reference width fraction rwratio (subplots.py 642). -/
def rwrOf (kw : SubplotsKw) : ℚ :=
  (((mainRatios kw.wratios kw.wpanels).length : ℚ)
      * sliceSum (mainRatios kw.wratios kw.wpanels) kw.xref.1 (kw.xref.2 + 1))
    / (dxOf kw * (mainRatios kw.wratios kw.wpanels).sum)

/-- Reference height fraction rhratio (subplots.py 643). -/
def rhrOf (kw : SubplotsKw) : ℚ :=
  (((mainRatios kw.hratios kw.hpanels).length : ℚ)
      * sliceSum (mainRatios kw.hratios kw.hpanels) kw.yref.1 (kw.yref.2 + 1))
    / (dyOf kw * (mainRatios kw.hratios kw.hpanels).sum)

/-- _subplots_geometry (subplots.py 574-712).  rcw is the configured
default reference axes width rc[subplots.axwidth] (external
configuration).  Returns ((width, height), gridspec keyword args, the
keyword state as left behind by the call, whose ratio arrays were
mutated in place).  The ZeroDivisionError guards model the Python
divisions at lines 642-643 whose denominators would be zero. -/
def _subplots_geometry (rcw : ℚ) (kw : SubplotsKw) :
    Except PyErr ((ℚ × ℚ) × GridspecKw × SubplotsKw) :=
  -- length checks (subplots.py 596-608)
  if kw.hratios.length ≠ kw.nrows then .error .valueError
  else if kw.wratios.length ≠ kw.ncols then .error .valueError
  else if kw.hspace.length ≠ kw.nrows - 1 then .error .valueError
  else if kw.wspace.length ≠ kw.ncols - 1 then .error .valueError
  else if kw.hpanels.length ≠ kw.nrows then .error .valueError
  else if kw.wpanels.length ≠ kw.ncols then .error .valueError
  -- reference cell fractions (subplots.py 636-645)
  else if dxOf kw * (mainRatios kw.wratios kw.wpanels).sum = 0 then .error .zeroDivisionError
  else if dyOf kw * (mainRatios kw.hratios kw.hpanels).sum = 0 then .error .zeroDivisionError
  else if rwrOf kw = 0 ∨ rhrOf kw = 0 then .error .runtimeError
  else
  match resolveAspect kw.aspect with
  | .error e => .error e
  | .ok aspect =>
    match solveDims rcw aspect
        (mainRatios kw.hratios kw.hpanels).length (mainRatios kw.wratios kw.wpanels).length
        (dxOf kw) (dyOf kw) (rwrOf kw) (rhrOf kw) (rwspOf kw) (rhspOf kw)
        kw.wspace.sum kw.hspace.sum
        (panelRatios kw.wratios kw.wpanels).sum (panelRatios kw.hratios kw.hpanels).sum
        kw.left kw.right kw.top kw.bottom
        kw.width kw.height kw.axwidth kw.axheight with
    | .error e => .error e
    | .ok d => finishGeometry kw d.1 d.2.1 d.2.2.1 d.2.2.2

/-! ## LayoutMutator: _insert_row_column (subplots.py 1247-1345)

The structural part edits the per-dimension annotation arrays (panel
toggles, ratios, gap spaces, user gap overrides) held in _subplots_kw and
_subplots_orig_kw.  Only the arrays for the affected dimension are
touched; they are modelled as an InsertState.  After a structural
insertion the source re-runs _subplots_geometry and remaps every existing
placement. -/

/-- The per-dimension slice of _subplots_kw/_subplots_orig_kw mutated by
_insert_row_column: panel toggles, ratio array, gap array, user gap
overrides, and the logical slot count (ncols or nrows). -/
structure InsertState where
  panels : List String
  ratios : List ℚ
  spaces : List ℚ
  spacesOrig : List (Option ℚ)
  dim : ℕ
  deriving DecidableEq, Repr

/-- Structural/update part of Figure._insert_row_column
(subplots.py 1259-1299).  Returns the updated arrays, the `exists` flag
(true when the requested slot already held a panel of the same tag, in
which case only the stored space is updated), and the final slot index
(incremented by the side-dependent offset when a structural insertion
happened) which the placement remap of lines 1320-1332 compares
against. -/
def insertRowColumn (side : String) (idx : ℤ) (ratio space : ℚ)
    (spaceOrig : Option ℚ) (figure : Bool) (st : InsertState) :
    Except PyErr (InsertState × Bool × ℤ) :=
  if side = "" then .error .indexError
  else
  let s := side.take 1
  if ¬(s = "l" ∨ s = "r" ∨ s = "b" ∨ s = "t") then .error .valueError
  else
  let idxSpace := idx - (if s = "b" ∨ s = "r" then 1 else 0)
  let idxOffset : ℤ := if s = "t" ∨ s = "l" then 1 else 0
  let entry := if figure then "f" else s
  -- slot-already-exists test (subplots.py 1277-1279)
  let exTest : Except PyErr Bool :=
    if idx = -1 ∨ idx = (st.panels.length : ℤ) then .ok false
    else match pyGet? st.panels idx with
      | some p => .ok (p = entry)
      | none => .error .indexError
  match exTest with
  | .error e => .error e
  | .ok true =>
      -- only update the stored space (subplots.py 1281-1283)
      match pyGet? st.spacesOrig idxSpace with
      | none => .error .indexError
      | some cur =>
          let newOrig := if cur = none then units spaceOrig else cur
          match pySet st.spacesOrig idxSpace newOrig with
          | .error e => .error e
          | .ok spacesOrig2 =>
              match pySet st.spaces idxSpace (_notNone newOrig space) with
              | .error e => .error e
              | .ok spaces2 =>
                  .ok ({ st with spacesOrig := spacesOrig2, spaces := spaces2 },
                       true, idx)
  | .ok false =>
      -- make room for the new panel slot (subplots.py 1285-1294)
      let idx2 := idx + idxOffset
      let idxSpace2 := idxSpace + idxOffset
      .ok ({ panels := pyInsert st.panels idx2 entry,
             ratios := pyInsert st.ratios idx2 ratio,
             spaces := pyInsert st.spaces idxSpace2 space,
             spacesOrig := pyInsert st.spacesOrig idxSpace2 spaceOrig,
             dim := st.dim + 1 },
           false, idx2)

/-- The inserts tuple of subplots.py 1320-1323: which of the four active
coordinates (row1, row2, col1, col2) are compared against the insertion
index. -/
def insertsFor (s : String) (idx : ℤ) :
    Option ℤ × Option ℤ × Option ℤ × Option ℤ :=
  if s = "l" ∨ s = "r" then (none, none, some idx, some idx)
  else (some idx, some idx, none, none)

/-- One coordinate update of the remap loop (subplots.py 1329-1332):
increment when compared against an insertion index and not below it. -/
def bumpCoord (ins : Option ℤ) (c : ℤ) : ℤ :=
  match ins with
  | some t => if c ≥ t then c + 1 else c
  | none => c

/-- Placement remap (subplots.py 1320-1333): patch the four active
boundary coordinates of an existing placement after a structural panel
insertion at the given (offset-adjusted) index. -/
def remapCoords (s : String) (idx : ℤ) (coords : ℤ × ℤ × ℤ × ℤ) :
    ℤ × ℤ × ℤ × ℤ :=
  let ins := insertsFor s idx
  (bumpCoord ins.1 coords.1, bumpCoord ins.2.1 coords.2.1,
   bumpCoord ins.2.2.1 coords.2.2.1, bumpCoord ins.2.2.2 coords.2.2.2)

/-- Which of the two recognized ownership relations holds for a placement
during remap (subplots.py 1335-1340): the subplotspec is the topmost
subplotspec itself, or it is the subplot_spec of a nested gridspec, or
neither (ambiguous nesting). -/
inductive Ownership where
  | topmost
  | nested
  | ambiguous
  deriving DecidableEq, Repr

/-- Where the remapped subplotspec is stored (subplots.py 1335-1338). -/
inductive SpecAssign where
  | toAxes (coords : ℤ × ℤ × ℤ × ℤ)
  | toNestedSpec (coords : ℤ × ℤ × ℤ × ℤ)
  deriving DecidableEq, Repr

/-- Per-placement reassignment step of the remap loop
(subplots.py 1324-1340): remap the coordinates, then store the new
subplotspec on the axes (topmost) or on the nested gridspec; ambiguous
nesting raises ValueError (line 1340). -/
def reassignSubplotspec (s : String) (idx : ℤ) (own : Ownership)
    (coords : ℤ × ℤ × ℤ × ℤ) : Except PyErr SpecAssign :=
  let c := remapCoords s idx coords
  match own with
  | .topmost => .ok (.toAxes c)
  | .nested => .ok (.toNestedSpec c)
  | .ambiguous => .error .valueError

/-! ## TightLayoutRefiner: per-gap update of _adjust_tight_layout
(subplots.py 1034-1103)

The abutting-content groups for a gap are found from rendered bounding
boxes (the external measurement interface); each group is a pair
(left/bottom members, right/top members) of measured extents along the
gap axis, as (lo, hi) pairs in display units.  The per-gap update below
is lines 1051-1102: choose the pad, take the minimal separation over the
groups, and set the new gap, with a user-pinned override always
winning. -/

/-- Minimum of a list, head-seeded (Python min over a non-empty list);
0 for the empty list, which the source never reaches. -/
def minList : List ℚ → ℚ
  | [] => 0
  | x :: xs => xs.foldl min x

/-- Maximum of a list, head-seeded; 0 for the empty list. -/
def maxList : List ℚ → ℚ
  | [] => 0
  | x :: xs => xs.foldl max x

/-- The pad test of subplots.py 1054-1058: panelpad applies when the gap
sits inside a panel stack or between a panel and its parent cell,
otherwise axpad applies. -/
def panelPadCond (p q : String) : Bool :=
  ((p = "l" || p = "t") && (q = "l" || q = "t" || q = ""))
  || ((p = "" || p = "r" || p = "b") && (q = "r" || q = "b"))
  || (p = "f" && q = "f")

/-- One abutting group: measured (lo, hi) extents of the content on the
two sides of the gap, in display units. -/
abbrev TightGroup : Type := List (ℚ × ℚ) × List (ℚ × ℚ)

/-- Separation of one group (subplots.py 1096-1098): minimal leading edge
of the far side minus maximal trailing edge of the near side, converted
from display units by dpi. -/
def groupSep (dpi : ℚ) (g : TightGroup) : ℚ :=
  (minList (g.2.map Prod.fst) - maxList (g.1.map Prod.snd)) / dpi

/-- Per-gap space update (subplots.py 1051-1102): pad selection, measured
separations, `max(0, space - min(jspaces) + pad)`, and the user override
(space_orig) taking precedence; with no abutting groups the gap is left
unchanged. -/
def tightGapSpace (dpi axpad panelpad : ℚ) (p q : String)
    (space : ℚ) (spaceOrig : Option ℚ) (groups : List TightGroup) : ℚ :=
  let pad := if panelPadCond p q then panelpad else axpad
  let jspaces := groups.map (groupSep dpi)
  match jspaces with
  | [] => space
  | j :: js => _notNone spaceOrig (max 0 (space - minList (j :: js) + pad))

/-- Decidable equality for Except results, used to evaluate the embedded
functions on concrete inputs. -/
instance {e a : Type} [DecidableEq e] [DecidableEq a] : DecidableEq (Except e a) :=
  fun x y =>
    match x, y with
    | .error u, .error v =>
        if h : u = v then .isTrue (h ▸ rfl)
        else .isFalse (fun hc => h (Except.error.inj hc))
    | .ok u, .ok v =>
        if h : u = v then .isTrue (h ▸ rfl)
        else .isFalse (fun hc => h (Except.ok.inj hc))
    | .error _, .ok _ => .isFalse (fun hc => Except.noConfusion hc)
    | .ok _, .error _ => .isFalse (fun hc => Except.noConfusion hc)

/-! ## Concrete inputs from the worked examples of the spec -/

/-- The end-to-end example of spec section 8.7: 2 x 2 grid, uniform
ratios, axwidth 2, aspect 1, all margins 1/2, wspace = hspace = 1/5. -/
def exampleKw : SubplotsKw :=
  { nrows := 2, ncols := 2, aspect := Sum.inl 1,
    xref := (0, 0), yref := (0, 0),
    width := none, height := none, axwidth := some 2, axheight := none,
    wspace := [1/5], hspace := [1/5],
    wratios := [1, 1], hratios := [1, 1],
    left := 1/2, right := 1/2, top := 1/2, bottom := 1/2,
    wpanels := ["", ""], hpanels := ["", ""] }

/-- The gridspec keyword args the solve produces for exampleKw. -/
def exampleGs : GridspecKw :=
  { ncols := 2, nrows := 2, wspace := [1/5], hspace := [1/5],
    width_ratios := [2, 2], height_ratios := [2, 2],
    left := 5/52, bottom := 5/52, right := 47/52, top := 47/52 }

/-- The keyword state left behind by the solve on exampleKw: the ratio
arrays were overwritten in place with absolute sizes. -/
def exampleKwAfter : SubplotsKw :=
  { exampleKw with wratios := [2, 2], hratios := [2, 2] }

/-- Insufficient-room example for the negative-extent check: figure width
1 with left and right margins of 3/5 each. -/
def crampedKw : SubplotsKw :=
  { nrows := 1, ncols := 1, aspect := Sum.inl 1,
    xref := (0, 0), yref := (0, 0),
    width := some 1, height := some 1, axwidth := none, axheight := none,
    wspace := [], hspace := [],
    wratios := [1], hratios := [1],
    left := 3/5, right := 3/5, top := 1/5, bottom := 1/5,
    wpanels := [""], hpanels := [""] }

/-- Column-dimension arrays of a plain 2 x 2 logical grid, before any
panel insertion. -/
def twoColState : InsertState :=
  { panels := ["", ""], ratios := [1, 1], spaces := [1/5],
    spacesOrig := [none], dim := 2 }

/-! ## Lemmas and claim theorems -/

theorem listNth?_insertAt_self {α : Type} (a : α) :
    ∀ (l : List α) (n : ℕ), n ≤ l.length →
      listNth? (listInsertAt l n a) n = some a := by
  intro l
  induction l with
  | nil =>
      intro n hn
      cases n with
      | zero => simp [listInsertAt, listNth?]
      | succ m => simp at hn
  | cons x xs ih =>
      intro n hn
      cases n with
      | zero => simp [listInsertAt, listNth?]
      | succ m =>
          simp only [listInsertAt, listNth?]
          exact ih m (by simpa using hn)

theorem length_listInsertAt {α : Type} (a : α) :
    ∀ (l : List α) (n : ℕ), (listInsertAt l n a).length = l.length + 1 := by
  intro l
  induction l with
  | nil => intro n; cases n <;> simp [listInsertAt]
  | cons x xs ih =>
      intro n
      cases n with
      | zero => simp [listInsertAt]
      | succ m => simp [listInsertAt, ih m]

theorem length_listSet {α : Type} (a : α) :
    ∀ (l : List α) (n : ℕ), (listSet l n a).length = l.length := by
  intro l
  induction l with
  | nil => intro n; simp [listSet]
  | cons x xs ih =>
      intro n
      cases n with
      | zero => simp [listSet]
      | succ m => simp [listSet, ih m]

theorem listNth?_set_self {α : Type} (a : α) :
    ∀ (l : List α) (n : ℕ), n < l.length →
      listNth? (listSet l n a) n = some a := by
  intro l
  induction l with
  | nil => intro n hn; simp at hn
  | cons x xs ih =>
      intro n hn
      cases n with
      | zero => simp [listSet, listNth?]
      | succ m =>
          simp only [listSet, listNth?]
          exact ih m (by simpa using hn)

theorem take_one_r : ("r" : String).take 1 = "r" := rfl

theorem mainRatios_writeBackS (t s : ℚ) :
    ∀ (rs : List ℚ) (ps : List String),
      mainRatios (writeBackS t s rs ps) ps
        = (mainRatios rs ps).map (fun r => t * r / s) := by
  intro rs
  induction rs with
  | nil => intro ps; cases ps <;> simp [writeBackS, mainRatios]
  | cons r rs ih =>
      intro ps
      cases ps with
      | nil => simp [writeBackS, mainRatios]
      | cons p ps =>
          by_cases hp : p = ""
          · simp [writeBackS, mainRatios, hp, ih]
          · simp [writeBackS, mainRatios, hp, ih]

theorem panelRatios_writeBackS (t s : ℚ) :
    ∀ (rs : List ℚ) (ps : List String),
      panelRatios (writeBackS t s rs ps) ps = panelRatios rs ps := by
  intro rs
  induction rs with
  | nil => intro ps; cases ps <;> simp [writeBackS, panelRatios]
  | cons r rs ih =>
      intro ps
      cases ps with
      | nil => simp [writeBackS, panelRatios]
      | cons p ps =>
          by_cases hp : p = ""
          · simp [writeBackS, panelRatios, hp, ih]
          · simp [writeBackS, panelRatios, hp, ih]

theorem sum_map_mulDiv (t s : ℚ) (l : List ℚ) :
    (l.map (fun r => t * r / s)).sum = t * l.sum / s := by
  induction l with
  | nil => simp
  | cons x xs ih =>
      simp only [List.map_cons, List.sum_cons, ih]
      ring

theorem mainRatios_writeBack_sum (t : ℚ) (rs : List ℚ) (ps : List String)
    (hs : (mainRatios rs ps).sum ≠ 0) :
    (mainRatios (writeBack t rs ps) ps).sum = t := by
  rw [writeBack, mainRatios_writeBackS, sum_map_mulDiv, mul_div_assoc,
      div_self hs, mul_one]

theorem panelRatios_writeBack (t : ℚ) (rs : List ℚ) (ps : List String) :
    panelRatios (writeBack t rs ps) ps = panelRatios rs ps := by
  rw [writeBack, panelRatios_writeBackS]

theorem solveDims_ok (rcw aspect : ℚ) (nrowsMain ncolsMain : ℕ)
    (dx dy rwr rhr rwsp rhsp : ℚ)
    (sumWspace sumHspace sumWpanels sumHpanels : ℚ)
    (left right top bottom : ℚ)
    (width0 height0 axwidth0 axheight0 : Option ℚ)
    (aw ah w h : ℚ)
    (hsd : solveDims rcw aspect nrowsMain ncolsMain dx dy rwr rhr rwsp rhsp
        sumWspace sumHspace sumWpanels sumHpanels left right top bottom
        width0 height0 axwidth0 axheight0 = .ok (aw, ah, w, h)) :
    w = aw + left + right + sumWspace + sumWpanels ∧
    h = ah + top + bottom + sumHspace + sumHpanels := by
  cases width0 with
  | some wv =>
      cases height0 with
      | some hv =>
          simp only [solveDims, Except.ok.injEq, Prod.mk.injEq] at hsd
          obtain ⟨h1, h2, h3, h4⟩ := hsd
          subst h1; subst h2; subst h3; subst h4
          constructor <;> ring
      | none =>
          simp only [solveDims] at hsd
          split at hsd
          · exact Except.noConfusion hsd
          · simp only [Except.ok.injEq, Prod.mk.injEq] at hsd
            obtain ⟨h1, h2, h3, h4⟩ := hsd
            subst h1; subst h2; subst h3; subst h4
            constructor <;> ring
  | none =>
      cases height0 with
      | some hv =>
          simp only [solveDims, Except.ok.injEq, Prod.mk.injEq] at hsd
          obtain ⟨h1, h2, h3, h4⟩ := hsd
          subst h1; subst h2; subst h3; subst h4
          constructor <;> ring
      | none =>
          cases axwidth0 with
          | some awv =>
              cases axheight0 with
              | some ahv =>
                  simp only [solveDims, Except.ok.injEq, Prod.mk.injEq] at hsd
                  obtain ⟨h1, h2, h3, h4⟩ := hsd
                  subst h1; subst h2; subst h3; subst h4
                  constructor <;> ring
              | none =>
                  simp only [solveDims] at hsd
                  split at hsd
                  · exact Except.noConfusion hsd
                  · simp only [Except.ok.injEq, Prod.mk.injEq] at hsd
                    obtain ⟨h1, h2, h3, h4⟩ := hsd
                    subst h1; subst h2; subst h3; subst h4
                    constructor <;> ring
          | none =>
              cases axheight0 with
              | some ahv =>
                  simp only [solveDims, Except.ok.injEq, Prod.mk.injEq] at hsd
                  obtain ⟨h1, h2, h3, h4⟩ := hsd
                  subst h1; subst h2; subst h3; subst h4
                  constructor <;> ring
              | none =>
                  simp only [solveDims] at hsd
                  split at hsd
                  · exact Except.noConfusion hsd
                  · simp only [Except.ok.injEq, Prod.mk.injEq] at hsd
                    obtain ⟨h1, h2, h3, h4⟩ := hsd
                    subst h1; subst h2; subst h3; subst h4
                    constructor <;> ring

theorem finishGeometry_ok (kw : SubplotsKw) (aw ah w h W H : ℚ)
    (gs : GridspecKw) (kwA : SubplotsKw)
    (hf : finishGeometry kw aw ah w h = .ok ((W, H), gs, kwA)) :
    0 ≤ aw ∧ 0 ≤ ah ∧ w ≠ 0 ∧ h ≠ 0 ∧ W = w ∧ H = h ∧
    gs = { ncols := kw.ncols, nrows := kw.nrows,
           wspace := kw.wspace, hspace := kw.hspace,
           width_ratios := writeBack aw kw.wratios kw.wpanels,
           height_ratios := writeBack ah kw.hratios kw.hpanels,
           left := kw.left / w, bottom := kw.bottom / h,
           right := 1 - kw.right / w, top := 1 - kw.top / h } ∧
    kwA = { kw with wratios := writeBack aw kw.wratios kw.wpanels,
                    hratios := writeBack ah kw.hratios kw.hpanels } := by
  simp only [finishGeometry] at hf
  split at hf
  · exact Except.noConfusion hf
  rename_i h1
  split at hf
  · exact Except.noConfusion hf
  rename_i h2
  split at hf
  · exact Except.noConfusion hf
  rename_i h3
  push_neg at h3
  simp only [Except.ok.injEq, Prod.mk.injEq] at hf
  obtain ⟨⟨hW, hH⟩, hgs, hkw⟩ := hf
  exact ⟨not_lt.mp h1, not_lt.mp h2, h3.1, h3.2, hW.symm, hH.symm, hgs.symm, hkw.symm⟩

theorem geometry_ok_spec (rcw : ℚ) (kw : SubplotsKw)
    (W H : ℚ) (gs : GridspecKw) (kwA : SubplotsKw)
    (hok : _subplots_geometry rcw kw = .ok ((W, H), gs, kwA)) :
    ∃ aw ah,
      0 ≤ aw ∧ 0 ≤ ah ∧ W ≠ 0 ∧ H ≠ 0 ∧
      (mainRatios kw.wratios kw.wpanels).sum ≠ 0 ∧
      (mainRatios kw.hratios kw.hpanels).sum ≠ 0 ∧
      W = aw + kw.left + kw.right + kw.wspace.sum
            + (panelRatios kw.wratios kw.wpanels).sum ∧
      H = ah + kw.top + kw.bottom + kw.hspace.sum
            + (panelRatios kw.hratios kw.hpanels).sum ∧
      gs = { ncols := kw.ncols, nrows := kw.nrows,
             wspace := kw.wspace, hspace := kw.hspace,
             width_ratios := writeBack aw kw.wratios kw.wpanels,
             height_ratios := writeBack ah kw.hratios kw.hpanels,
             left := kw.left / W, bottom := kw.bottom / H,
             right := 1 - kw.right / W, top := 1 - kw.top / H } ∧
      kwA = { kw with wratios := writeBack aw kw.wratios kw.wpanels,
                      hratios := writeBack ah kw.hratios kw.hpanels } := by
  simp only [_subplots_geometry] at hok
  split at hok
  · exact Except.noConfusion hok
  split at hok
  · exact Except.noConfusion hok
  split at hok
  · exact Except.noConfusion hok
  split at hok
  · exact Except.noConfusion hok
  split at hok
  · exact Except.noConfusion hok
  split at hok
  · exact Except.noConfusion hok
  split at hok
  · exact Except.noConfusion hok
  rename_i hdenW
  split at hok
  · exact Except.noConfusion hok
  rename_i hdenH
  split at hok
  · exact Except.noConfusion hok
  split at hok
  · exact Except.noConfusion hok
  rename_i aspect haspect
  split at hok
  · exact Except.noConfusion hok
  rename_i d hsd
  obtain ⟨aw, ah, w, h⟩ := d
  have hdims := solveDims_ok _ _ _ _ _ _ _ _ _ _ _ _ _ _ _ _ _ _ _ _ _ _ _ _ _ _ hsd
  have hfin := finishGeometry_ok kw aw ah w h W H gs kwA hok
  have hSw : (mainRatios kw.wratios kw.wpanels).sum ≠ 0 := by
    intro hS
    exact hdenW (by rw [hS, mul_zero])
  have hSh : (mainRatios kw.hratios kw.hpanels).sum ≠ 0 := by
    intro hS
    exact hdenH (by rw [hS, mul_zero])
  obtain ⟨haw, hah, hwne, hhne, hW, hH, hgs, hkwA⟩ := hfin
  obtain ⟨hweq, hheq⟩ := hdims
  subst hW
  subst hH
  exact ⟨aw, ah, haw, hah, hwne, hhne, hSw, hSh, hweq, hheq, hgs, hkwA⟩

/-- Concrete evaluation of the geometry solve on the 2 x 2 example. -/
theorem geometry_example_eval :
    _subplots_geometry 2 exampleKw = .ok ((26/5, 26/5), exampleGs, exampleKwAfter) := by
  norm_num [_subplots_geometry, exampleKw, exampleGs, exampleKwAfter, dxOf, dyOf, rwspOf, rhspOf,
    rwrOf, rhrOf, mainRatios, panelRatios, mainSpaces, spaceIdxs, mainIdxs, spaceOffset,
    spaceOffsetGo, stopTag, sliceSum, resolveAspect, solveDims, finishGeometry, writeBack,
    writeBackS]

/-- Concrete evaluation of the geometry solve on the cramped example. -/
theorem geometry_cramped_eval :
    _subplots_geometry 2 crampedKw = .error .valueError := by
  norm_num [_subplots_geometry, crampedKw, dxOf, dyOf, rwspOf, rhspOf,
    rwrOf, rhrOf, mainRatios, panelRatios, mainSpaces, spaceIdxs, mainIdxs, spaceOffset,
    spaceOffsetGo, stopTag, sliceSum, resolveAspect, solveDims, finishGeometry, writeBack,
    writeBackS]

/-- Claim C1: for the geometry solve with 2 rows and 2 columns, uniform
ratios, axwidth 2, aspect 1, margins left = right = top = bottom = 1/2,
wspace = hspace = 1/5, a single-cell reference axes and no explicit
figure width or height, the solved figure size is width = height = 26/5
(= 5.2), i.e. two reference-equal cells plus one gap plus two margins. -/
theorem geometry_example_size :
    (_subplots_geometry 2 exampleKw).map (fun r => r.1)
      = .ok ((26/5 : ℚ), (26/5 : ℚ)) ∧
    (26/5 : ℚ) = 2 * 2 + 1/5 + 1/2 + 1/2 := by
  constructor
  · rw [geometry_example_eval]; rfl
  · norm_num

/-- Claim C5: whenever the geometry solve succeeds, the sum of the solved
main (non-panel) ratios written back into each ratio array equals the
solved main-content extent (the figure dimension minus margins, spaces,
and fixed panel widths) exactly, hence within any floating tolerance,
and the panel-slot ratios are left untouched at their fixed widths. -/
theorem ratio_conservation (rcw : ℚ) (kw : SubplotsKw)
    (W H : ℚ) (gs : GridspecKw) (kwA : SubplotsKw)
    (hok : _subplots_geometry rcw kw = .ok ((W, H), gs, kwA)) :
    (mainRatios gs.width_ratios kw.wpanels).sum
      = W - kw.left - kw.right - kw.wspace.sum
          - (panelRatios kw.wratios kw.wpanels).sum ∧
    (mainRatios gs.height_ratios kw.hpanels).sum
      = H - kw.top - kw.bottom - kw.hspace.sum
          - (panelRatios kw.hratios kw.hpanels).sum ∧
    panelRatios gs.width_ratios kw.wpanels = panelRatios kw.wratios kw.wpanels ∧
    panelRatios gs.height_ratios kw.hpanels = panelRatios kw.hratios kw.hpanels := by
  obtain ⟨aw, ah, _, _, _, _, hSw, hSh, hWeq, hHeq, hgs, _⟩ :=
    geometry_ok_spec rcw kw W H gs kwA hok
  subst hgs
  refine ⟨?_, ?_, ?_, ?_⟩
  · show (mainRatios (writeBack aw kw.wratios kw.wpanels) kw.wpanels).sum = _
    rw [mainRatios_writeBack_sum aw kw.wratios kw.wpanels hSw]
    linarith [hWeq]
  · show (mainRatios (writeBack ah kw.hratios kw.hpanels) kw.hpanels).sum = _
    rw [mainRatios_writeBack_sum ah kw.hratios kw.hpanels hSh]
    linarith [hHeq]
  · exact panelRatios_writeBack aw kw.wratios kw.wpanels
  · exact panelRatios_writeBack ah kw.hratios kw.hpanels

/-- Witness for ratio_conservation at the concrete 2 x 2 example input. -/
theorem ratio_conservation_witness :
    (mainRatios [2, 2] ["", ""]).sum
      = 26/5 - 1/2 - 1/2 - 1/5 - (panelRatios [1, 1] ["", ""]).sum := by
  have h := ratio_conservation 2 exampleKw (26/5) (26/5) exampleGs exampleKwAfter geometry_example_eval
  simpa [exampleKw, exampleGs] using h.1

/-- Claim C6: the geometry solve never returns a result whose solved
main-content extent (figure dimension minus margins minus panel and space
allocations) is negative -- by claim C5 that extent equals the sum of the
written-back main ratios, which is proved non-negative here -- and the
concrete cramped request (width 1 with margins summing to 6/5) raises
ValueError instead of returning. -/
theorem negative_room_raises :
    (∀ (rcw : ℚ) (kw : SubplotsKw) (W H : ℚ) (gs : GridspecKw) (kwA : SubplotsKw),
        _subplots_geometry rcw kw = .ok ((W, H), gs, kwA) →
        0 ≤ (mainRatios gs.width_ratios kw.wpanels).sum ∧
        0 ≤ (mainRatios gs.height_ratios kw.hpanels).sum) ∧
    _subplots_geometry 2 crampedKw = .error .valueError := by
  constructor
  · intro rcw kw W H gs kwA hok
    obtain ⟨aw, ah, haw, hah, _, _, hSw, hSh, _, _, hgs, _⟩ :=
      geometry_ok_spec rcw kw W H gs kwA hok
    subst hgs
    constructor
    · show 0 ≤ (mainRatios (writeBack aw kw.wratios kw.wpanels) kw.wpanels).sum
      rw [mainRatios_writeBack_sum aw kw.wratios kw.wpanels hSw]
      exact haw
    · show 0 ≤ (mainRatios (writeBack ah kw.hratios kw.hpanels) kw.hpanels).sum
      rw [mainRatios_writeBack_sum ah kw.hratios kw.hpanels hSh]
      exact hah
  · exact geometry_cramped_eval

/-- Witness for negative_room_raises at the concrete 2 x 2 example. -/
theorem negative_room_raises_witness :
    0 ≤ (mainRatios [2, 2] ["", ""]).sum ∧ 0 ≤ (mainRatios [2, 2] ["", ""]).sum := by
  have h := negative_room_raises.1 2 exampleKw (26/5) (26/5) exampleGs exampleKwAfter geometry_example_eval
  simpa [exampleKw, exampleGs] using h

/-- Counterexample for claim C9: the geometry solve does mutate its
caller-supplied ratio arrays -- on the 2 x 2 example the keyword state
left behind holds wratios [2, 2] while the caller supplied [1, 1]. -/
theorem geometry_mutation_counterexample :
    (_subplots_geometry 2 exampleKw).map (fun r => r.2.2.wratios) = .ok [2, 2] ∧
    exampleKw.wratios = [1, 1] ∧
    ¬(([2, 2] : List ℚ) = [1, 1]) := by
  refine ⟨by rw [geometry_example_eval]; rfl, rfl, by norm_num⟩

/-- Claim C9 as amended: the geometry solve is deterministic (equal
inputs give equal outputs) and hidden-state free, but it writes the
solved absolute main ratios back into the caller-supplied ratio arrays in
place; the mutation is atomic and total -- the space arrays, margins,
panel toggles and all other fields are unchanged, and panel-slot ratio
entries are preserved. -/
theorem geometry_deterministic_atomic (rcw : ℚ) (kw kw2 : SubplotsKw)
    (W H : ℚ) (gs : GridspecKw) (kwA : SubplotsKw)
    (heq : kw2 = kw)
    (hok : _subplots_geometry rcw kw = .ok ((W, H), gs, kwA)) :
    _subplots_geometry rcw kw2 = _subplots_geometry rcw kw ∧
    kwA = { kw with wratios := gs.width_ratios, hratios := gs.height_ratios } ∧
    kwA.wspace = kw.wspace ∧ kwA.hspace = kw.hspace ∧
    kwA.left = kw.left ∧ kwA.right = kw.right ∧
    kwA.top = kw.top ∧ kwA.bottom = kw.bottom ∧
    kwA.width = kw.width ∧ kwA.height = kw.height ∧
    kwA.nrows = kw.nrows ∧ kwA.ncols = kw.ncols ∧
    kwA.wpanels = kw.wpanels ∧ kwA.hpanels = kw.hpanels ∧
    panelRatios kwA.wratios kw.wpanels = panelRatios kw.wratios kw.wpanels ∧
    panelRatios kwA.hratios kw.hpanels = panelRatios kw.hratios kw.hpanels := by
  obtain ⟨aw, ah, _, _, _, _, _, _, _, _, hgs, hkwA⟩ :=
    geometry_ok_spec rcw kw W H gs kwA hok
  subst heq
  subst hgs
  subst hkwA
  refine ⟨rfl, rfl, rfl, rfl, rfl, rfl, rfl, rfl, rfl, rfl, rfl, rfl, rfl, rfl, ?_, ?_⟩
  · exact panelRatios_writeBack aw kw2.wratios kw2.wpanels
  · exact panelRatios_writeBack ah kw2.hratios kw2.hpanels

/-- Witness for geometry_deterministic_atomic at the 2 x 2 example. -/
theorem geometry_deterministic_atomic_witness :
    _subplots_geometry 2 exampleKw = _subplots_geometry 2 exampleKw ∧
    exampleKwAfter = { exampleKw with wratios := exampleGs.width_ratios,
                                      hratios := exampleGs.height_ratios } := by
  have h := geometry_deterministic_atomic 2 exampleKw exampleKw (26/5) (26/5)
    exampleGs exampleKwAfter rfl geometry_example_eval
  exact ⟨h.1, h.2.1⟩

theorem sliceIndices_bounds (start stop : Option ℤ) (n : ℕ) :
    0 ≤ (sliceIndices start stop n).1 ∧ (sliceIndices start stop n).1 ≤ (n : ℤ) ∧
    0 ≤ (sliceIndices start stop n).2 ∧ (sliceIndices start stop n).2 ≤ (n : ℤ) := by
  cases start <;> cases stop <;> simp only [sliceIndices] <;>
    (try split) <;> (try split) <;> omega

/-- Claim C2: whenever index normalization succeeds with inclusive logical
endpoints (a, b), the endpoints are in range and the normalize-then-double
transform (_positem) sends them to the physical pair (2a, 2b), from which
floor division by 2 (the get_active_rows_columns direction) recovers
exactly (a, b). -/
theorem normalize_positem_roundtrip (key : GsKey) (size : ℕ) (a b : ℤ)
    (h : _normalize key size = .ok (a, b)) :
    0 ≤ a ∧ a ≤ b ∧ b < (size : ℤ) ∧
    _positem a = 2 * a ∧ _positem b = 2 * b ∧
    fromPhysical (_positem a) = a ∧ fromPhysical (_positem b) = b := by
  have hb : 0 ≤ a ∧ a ≤ b ∧ b < (size : ℤ) := by
    cases key with
    | int i =>
        simp only [_normalize] at h
        by_cases hi : i < 0
        · rw [if_pos hi] at h
          split at h
          · rename_i hc
            simp only [Except.ok.injEq, Prod.mk.injEq] at h
            obtain ⟨h1, h2⟩ := h
            rw [← h1, ← h2]
            exact ⟨hc.1, le_refl _, hc.2⟩
          · exact Except.noConfusion h
        · rw [if_neg hi] at h
          split at h
          · rename_i hc
            simp only [Except.ok.injEq, Prod.mk.injEq] at h
            obtain ⟨h1, h2⟩ := h
            rw [← h1, ← h2]
            exact ⟨hc.1, le_refl _, hc.2⟩
          · exact Except.noConfusion h
    | slice s e =>
        simp only [_normalize] at h
        split at h
        · rename_i hc
          simp only [Except.ok.injEq, Prod.mk.injEq] at h
          obtain ⟨h1, h2⟩ := h
          have hbnd := sliceIndices_bounds s e size
          obtain ⟨b1, b2, b3, b4⟩ := hbnd
          rw [← h1, ← h2]
          omega
        · exact Except.noConfusion h
  obtain ⟨h0, hab, hbs⟩ := hb
  have hpa : _positem a = 2 * a := by
    simp only [_positem]
    rw [if_neg (by omega)]
    ring
  have hpb : _positem b = 2 * b := by
    simp only [_positem]
    rw [if_neg (by omega)]
    ring
  refine ⟨h0, hab, hbs, hpa, hpb, ?_, ?_⟩
  · rw [hpa]
    show Int.fdiv (2 * a) 2 = a
    rw [mul_comm]
    exact Int.mul_fdiv_cancel a (by norm_num)
  · rw [hpb]
    show Int.fdiv (2 * b) 2 = b
    rw [mul_comm]
    exact Int.mul_fdiv_cancel b (by norm_num)

/-- Witness for normalize_positem_roundtrip: logical size 4, slice [-2:]
gives logical endpoints (2, 3), physical endpoints (4, 6), and floor
division recovers (2, 3). -/
theorem normalize_positem_roundtrip_witness :
    _normalize (GsKey.slice (some (-2)) none) 4 = .ok (2, 3) ∧
    _positem 2 = 2 * 2 ∧ _positem 3 = 2 * 3 ∧
    fromPhysical (_positem 2) = 2 ∧ fromPhysical (_positem 3) = 3 := by
  have heval : _normalize (GsKey.slice (some (-2)) none) 4 = .ok (2, 3) := by decide
  have h := normalize_positem_roundtrip (GsKey.slice (some (-2)) none) 4 2 3 heval
  exact ⟨heval, h.2.2.2.1, h.2.2.2.2.1, h.2.2.2.2.2.1, h.2.2.2.2.2.2⟩

/-- Claim C10: an empty (start not below stop after normalization) slice
is rejected with IndexError by the index-normalization step, as is any
out-of-range integer index; only non-empty slices and in-range integers
are accepted. -/
theorem empty_slice_rejected (size : ℕ) (s e : Option ℤ) (i : ℤ) :
    ((sliceIndices s e size).2 ≤ (sliceIndices s e size).1 →
      _normalize (GsKey.slice s e) size = .error .indexError) ∧
    (((if i < 0 then i + (size : ℤ) else i) < 0 ∨
        (size : ℤ) ≤ (if i < 0 then i + (size : ℤ) else i)) →
      _normalize (GsKey.int i) size = .error .indexError) := by
  constructor
  · intro hle
    simp only [_normalize]
    rw [if_neg (not_lt.mpr hle)]
  · intro hrange
    by_cases hi : i < 0
    · simp only [_normalize, if_pos hi]
      rw [if_neg (by rw [if_pos hi] at hrange; omega)]
    · simp only [_normalize, if_neg hi]
      rw [if_neg (by rw [if_neg hi] at hrange; omega)]

/-- Witness for empty_slice_rejected: the empty in-range slice [0:0] over
active size 4 raises IndexError. -/
theorem empty_slice_rejected_witness :
    _normalize (GsKey.slice (some 0) (some 0)) 4 = .error .indexError :=
  (empty_slice_rejected 4 (some 0) (some 0) 0).1 (by decide)

theorem take_one_left : ("left" : String).take 1 = "l" := rfl

/-- Claim C3: during placement remap after a panel insertion, exactly the
boundary coordinates of the affected dimension that are at or beyond the
(offset-adjusted) insertion index are incremented by one, all other
coordinates are unchanged; in particular, on a 2 x 2 logical grid a left
panel insertion (requested slot -1, offset-adjusted to 0) shifts a
placement spanning rows 0-1 and columns 0-1 to columns 1-2, giving the
gridspec slice arguments [0:2, 1:3], with the rows untouched. -/
theorem placement_remap_shift (s : String) (idx r1 r2 c1 c2 : ℤ) :
    ((s = "l" ∨ s = "r") →
      remapCoords s idx (r1, r2, c1, c2)
        = (r1, r2, if c1 ≥ idx then c1 + 1 else c1,
           if c2 ≥ idx then c2 + 1 else c2)) ∧
    ((s = "b" ∨ s = "t") →
      remapCoords s idx (r1, r2, c1, c2)
        = (if r1 ≥ idx then r1 + 1 else r1, if r2 ≥ idx then r2 + 1 else r2,
           c1, c2)) ∧
    insertRowColumn "left" (-1) 1 (1/5) none false twoColState
      = .ok ({ panels := ["l", "", ""], ratios := [1, 1, 1], spaces := [1/5, 1/5],
               spacesOrig := [none, none], dim := 3 }, false, 0) ∧
    remapCoords "l" 0 (0, 1, 0, 1) = (0, 1, 1, 2) ∧
    ((0 : ℤ), (1 : ℤ) + 1, (1 : ℤ), (2 : ℤ) + 1) = ((0 : ℤ), 2, 1, 3) := by
  refine ⟨?_, ?_, ?_, ?_, by norm_num⟩
  · rintro (hs | hs) <;> subst hs <;> simp [remapCoords, insertsFor, bumpCoord]
  · rintro (hs | hs) <;> subst hs <;> simp [remapCoords, insertsFor, bumpCoord]
  · norm_num [insertRowColumn, take_one_left, twoColState, pyInsert, listInsertAt,
      pyGet?, pyIdx?, units, show ¬("left" : String) = "" from by decide]
  · simp [remapCoords, insertsFor, bumpCoord]

/-- Witness for placement_remap_shift, instantiated for a right-panel
insertion at index 5 acting on a placement with column range 3-7. -/
theorem placement_remap_shift_witness :
    remapCoords "r" 5 (0, 1, 3, 7) = (0, 1, 3, 8) := by
  have h := (placement_remap_shift "r" 5 0 1 3 7).1 (Or.inr rfl)
  simpa using h

/-- Counterexample for claim C8: a placement whose region matches neither
recognized ownership relation makes the remap raise ValueError
(subplots.py 1340), not RuntimeError as claimed. -/
theorem remap_ambiguous_counterexample :
    reassignSubplotspec "l" 0 .ambiguous (0, 1, 0, 1) = .error .valueError ∧
    PyErr.valueError ≠ PyErr.runtimeError :=
  ⟨rfl, by decide⟩

/-- Claim C8 as amended: ambiguous nesting during remap raises a fatal
ValueError -- the condition is never silently tolerated and the step
never succeeds. -/
theorem remap_ambiguous_fatal (s : String) (idx : ℤ) (coords : ℤ × ℤ × ℤ × ℤ) :
    reassignSubplotspec s idx .ambiguous coords = .error .valueError ∧
    ∀ r, ¬(reassignSubplotspec s idx .ambiguous coords = .ok r) := by
  refine ⟨rfl, fun r hc => ?_⟩
  rw [show reassignSubplotspec s idx .ambiguous coords = .error .valueError from rfl] at hc
  exact Except.noConfusion hc

theorem foldl_min_le_init : ∀ (xs : List ℚ) (a : ℚ), xs.foldl min a ≤ a
  | [], a => le_refl a
  | x :: xs, a => le_trans (foldl_min_le_init xs (min a x)) (min_le_left a x)

theorem foldl_min_le_mem : ∀ (xs : List ℚ) (a x : ℚ), x ∈ xs → xs.foldl min a ≤ x := by
  intro xs
  induction xs with
  | nil => intro a x hx; simp at hx
  | cons y ys ih =>
      intro a x hx
      rcases List.mem_cons.mp hx with h | h
      · subst h
        exact le_trans (foldl_min_le_init ys (min a x)) (min_le_right a x)
      · exact ih (min a y) x h

theorem foldl_min_mem : ∀ (xs : List ℚ) (a : ℚ), xs.foldl min a = a ∨ xs.foldl min a ∈ xs := by
  intro xs
  induction xs with
  | nil => intro a; exact Or.inl rfl
  | cons x xs ih =>
      intro a
      rw [List.foldl_cons]
      rcases ih (min a x) with h | h
      · rcases le_total a x with hax | hxa
        · left; rw [h, min_eq_left hax]
        · right; rw [h, min_eq_right hxa]; exact List.mem_cons_self x xs
      · right; exact List.mem_cons_of_mem x h

theorem minList_mem (l : List ℚ) (hl : l ≠ []) : minList l ∈ l := by
  cases l with
  | nil => exact absurd rfl hl
  | cons x xs =>
      rcases foldl_min_mem xs x with h | h
      · simp [minList, h]
      · simp only [minList]
        exact List.mem_cons_of_mem x h

theorem minList_le (l : List ℚ) (x : ℚ) (hx : x ∈ l) : minList l ≤ x := by
  cases l with
  | nil => simp at hx
  | cons y ys =>
      rcases List.mem_cons.mp hx with h | h
      · subst h
        exact foldl_min_le_init ys x
      · exact foldl_min_le_mem ys y x h

/-- Claim C7: for a gap with at least one pair of abutting content groups,
the tight-layout pass sets the new gap size to the override when one was
supplied, and otherwise to max(0, requestedSpace - measuredSeparation +
pad), where measuredSeparation is the minimal separation over the
abutting groups (characterized here as a member of the separations that
bounds them all from below) and pad is panelpad exactly under the
panel-boundary test of subplots.py 1055-1057 (in particular axpad between
two main cells and panelpad adjacent to a panel boundary). -/
theorem tight_gap_update (dpi axpad panelpad space : ℚ) (p q : String)
    (spaceOrig : Option ℚ) (groups : List TightGroup)
    (hne : groups ≠ []) :
    tightGapSpace dpi axpad panelpad p q space spaceOrig groups
      = _notNone spaceOrig
          (max 0 (space - minList (groups.map (groupSep dpi))
            + (if panelPadCond p q then panelpad else axpad))) ∧
    minList (groups.map (groupSep dpi)) ∈ groups.map (groupSep dpi) ∧
    (∀ j ∈ groups.map (groupSep dpi), minList (groups.map (groupSep dpi)) ≤ j) ∧
    (∀ v, spaceOrig = some v →
      tightGapSpace dpi axpad panelpad p q space spaceOrig groups = v) ∧
    panelPadCond "" "" = false ∧
    panelPadCond "l" "" = true ∧ panelPadCond "" "r" = true ∧
    panelPadCond "t" "" = true ∧ panelPadCond "" "b" = true ∧
    panelPadCond "f" "f" = true := by
  cases groups with
  | nil => exact absurd rfl hne
  | cons g gs =>
      have heq : tightGapSpace dpi axpad panelpad p q space spaceOrig (g :: gs)
          = _notNone spaceOrig
              (max 0 (space - minList ((g :: gs).map (groupSep dpi))
                + (if panelPadCond p q then panelpad else axpad))) := by
        simp only [tightGapSpace, List.map_cons, minList]
      refine ⟨heq, ?_, ?_, ?_, by decide, by decide, by decide, by decide,
        by decide, by decide⟩
      · exact minList_mem _ (by simp)
      · intro j hj
        exact minList_le _ j hj
      · intro v hv
        rw [heq, hv]
        rfl

/-- Witness for tight_gap_update: a pinned user override wins over the
measured separation. -/
theorem tight_gap_update_witness :
    tightGapSpace 1 (1/10) (1/20) "" "" (1/2) (some (7/10))
      [([(0, 2)], [(3, 5)])] = 7/10 :=
  (tight_gap_update 1 (1/10) (1/20) (1/2) "" "" (some (7/10))
    [([(0, 2)], [(3, 5)])] (by simp)).2.2.2.1 (7/10) rfl

theorem pyInsert_natCast {α : Type} (l : List α) (k : ℕ) (a : α)
    (hk : k ≤ l.length) :
    pyInsert l (k : ℤ) a = listInsertAt l k a := by
  simp only [pyInsert]
  rw [if_neg (by omega : ¬((k : ℤ) < 0)), Int.toNat_natCast, Nat.min_eq_left hk]

theorem pyGet?_natCast {α : Type} (l : List α) (k : ℕ) (hk : k < l.length) :
    pyGet? l (k : ℤ) = listNth? l k := by
  simp only [pyGet?, pyIdx?]
  rw [if_pos ⟨by omega, by exact_mod_cast hk⟩, Int.toNat_natCast]

theorem pySet_natCast {α : Type} (l : List α) (k : ℕ) (a : α)
    (hk : k < l.length) :
    pySet l (k : ℤ) a = .ok (listSet l k a) := by
  simp only [pySet, pyIdx?]
  rw [if_pos ⟨by omega, by exact_mod_cast hk⟩, Int.toNat_natCast]

theorem listNth?_exists {α : Type} :
    ∀ (l : List α) (k : ℕ), k < l.length → ∃ a, listNth? l k = some a
  | [], k, hk => absurd hk (by simp)
  | a :: l, 0, _ => ⟨a, rfl⟩
  | _ :: l, k + 1, hk => listNth?_exists l k (by simpa using hk)

/-- Claim C4: inserting a panel twice at the same target index with the
same tag (right/bottom side family, shown for side "r", as in the spec
worked example) performs the structural insertion only once: the second
call finds the slot occupied by the same tag, leaves every array length
and the slot count unchanged, and merely updates the stored gap space;
the stored gap ends up equal to the space value of the call unless an
explicit override was pinned, in which case the pinned override wins and
the space argument is ignored. -/
theorem insert_panel_idempotent (st : InsertState) (k : ℕ)
    (ratio space : ℚ) (spaceOrig : Option ℚ)
    (st1 : InsertState) (ex1 : Bool) (i1 : ℤ)
    (hk1 : 1 ≤ k) (hk2 : k ≤ st.panels.length)
    (hsp : st.spaces.length + 1 = st.panels.length)
    (hso : st.spacesOrig.length + 1 = st.panels.length)
    (hnew : (k : ℤ) = (st.panels.length : ℤ) ∨ pyGet? st.panels (k : ℤ) ≠ some "r")
    (hfirst : insertRowColumn "r" (k : ℤ) ratio space spaceOrig false st
        = .ok (st1, ex1, i1)) :
    ex1 = false ∧ i1 = (k : ℤ) ∧
    (insertRowColumn "r" (k : ℤ) ratio space spaceOrig false st1).map
        (fun r => (r.1.panels.length, r.1.ratios.length, r.1.spaces.length,
                   r.1.spacesOrig.length, r.1.dim, r.2.1))
      = .ok (st1.panels.length, st1.ratios.length, st1.spaces.length,
             st1.spacesOrig.length, st1.dim, true) ∧
    (insertRowColumn "r" (k : ℤ) ratio space spaceOrig false st1).map
        (fun r => pyGet? r.1.spaces ((k : ℤ) - 1))
      = .ok (some (spaceOrig.getD space)) := by
  -- evaluate the first call: it is structural
  have hfirstEval : insertRowColumn "r" (k : ℤ) ratio space spaceOrig false st
      = .ok ({ panels := pyInsert st.panels (k : ℤ) "r",
               ratios := pyInsert st.ratios (k : ℤ) ratio,
               spaces := pyInsert st.spaces ((k : ℤ) - 1) space,
               spacesOrig := pyInsert st.spacesOrig ((k : ℤ) - 1) spaceOrig,
               dim := st.dim + 1 }, false, (k : ℤ)) := by
    rcases hnew with hlen | hget
    · simp [insertRowColumn, take_one_r, hlen]
    · by_cases hlen : (k : ℤ) = (st.panels.length : ℤ)
      · simp [insertRowColumn, take_one_r, hlen]
      · have hcond : ¬((k : ℤ) = -1 ∨ (k : ℤ) = (st.panels.length : ℤ)) := by
          push_neg
          exact ⟨by omega, hlen⟩
        have hklt : k < st.panels.length := by omega
        obtain ⟨p, hp⟩ : ∃ p, pyGet? st.panels (k : ℤ) = some p := by
          rw [pyGet?_natCast st.panels k hklt]
          exact listNth?_exists st.panels k hklt
        have hpr : p ≠ "r" := fun hpe => hget (by rw [hp, hpe])
        simp [insertRowColumn, take_one_r, hcond, hp, hpr]
  rw [hfirstEval] at hfirst
  simp only [Except.ok.injEq, Prod.mk.injEq] at hfirst
  obtain ⟨hst1, hex1, hi1⟩ := hfirst
  subst hst1
  subst hex1
  subst hi1
  refine ⟨rfl, rfl, ?_⟩
  -- nat forms of the inserted arrays
  have hkk : ((k : ℤ) - 1) = ((k - 1 : ℕ) : ℤ) := by omega
  have hpanels : pyInsert st.panels (k : ℤ) "r" = listInsertAt st.panels k "r" :=
    pyInsert_natCast st.panels k "r" hk2
  have hspaces : pyInsert st.spaces ((k : ℤ) - 1) space
      = listInsertAt st.spaces (k - 1) space := by
    rw [hkk]
    exact pyInsert_natCast st.spaces (k - 1) space (by omega)
  have hspacesOrig : pyInsert st.spacesOrig ((k : ℤ) - 1) spaceOrig
      = listInsertAt st.spacesOrig (k - 1) spaceOrig := by
    rw [hkk]
    exact pyInsert_natCast st.spacesOrig (k - 1) spaceOrig (by omega)
  have hlenPanels : (pyInsert st.panels (k : ℤ) "r").length = st.panels.length + 1 := by
    rw [hpanels]
    exact length_listInsertAt "r" st.panels k
  have hlenSpaces : (pyInsert st.spaces ((k : ℤ) - 1) space).length
      = st.spaces.length + 1 := by
    rw [hspaces]
    exact length_listInsertAt space st.spaces (k - 1)
  have hlenSpacesOrig : (pyInsert st.spacesOrig ((k : ℤ) - 1) spaceOrig).length
      = st.spacesOrig.length + 1 := by
    rw [hspacesOrig]
    exact length_listInsertAt spaceOrig st.spacesOrig (k - 1)
  -- the second call finds the slot occupied by the same tag
  have hcond2 : ¬((k : ℤ) = -1 ∨ (k : ℤ) = ((pyInsert st.panels (k : ℤ) "r").length : ℤ)) := by
    rw [hlenPanels]
    push_neg
    constructor <;> omega
  have hp2 : pyGet? (pyInsert st.panels (k : ℤ) "r") (k : ℤ) = some "r" := by
    rw [hpanels]
    rw [pyGet?_natCast _ k (by rw [length_listInsertAt "r" st.panels k]; omega)]
    exact listNth?_insertAt_self "r" st.panels k hk2
  have hcur : pyGet? (pyInsert st.spacesOrig ((k : ℤ) - 1) spaceOrig) ((k : ℤ) - 1)
      = some spaceOrig := by
    rw [hspacesOrig, hkk]
    rw [pyGet?_natCast _ (k - 1)
      (by rw [length_listInsertAt spaceOrig st.spacesOrig (k - 1)]; omega)]
    exact listNth?_insertAt_self spaceOrig st.spacesOrig (k - 1) (by omega)
  have hNewOrig : (if spaceOrig = none then units spaceOrig else spaceOrig) = spaceOrig := by
    cases spaceOrig <;> simp [units]
  have hset1 : pySet (pyInsert st.spacesOrig ((k : ℤ) - 1) spaceOrig) ((k : ℤ) - 1)
        (if spaceOrig = none then units spaceOrig else spaceOrig)
      = .ok (listSet (listInsertAt st.spacesOrig (k - 1) spaceOrig) (k - 1) spaceOrig) := by
    rw [hNewOrig, hspacesOrig, hkk]
    exact pySet_natCast _ (k - 1) spaceOrig
      (by rw [length_listInsertAt spaceOrig st.spacesOrig (k - 1)]; omega)
  have hset2 : pySet (pyInsert st.spaces ((k : ℤ) - 1) space) ((k : ℤ) - 1)
        (_notNone (if spaceOrig = none then units spaceOrig else spaceOrig) space)
      = .ok (listSet (listInsertAt st.spaces (k - 1) space) (k - 1)
          (spaceOrig.getD space)) := by
    rw [hNewOrig, hspaces, hkk]
    exact pySet_natCast _ (k - 1) (spaceOrig.getD space)
      (by rw [length_listInsertAt space st.spaces (k - 1)]; omega)
  have hsecond : insertRowColumn "r" (k : ℤ) ratio space spaceOrig false
      { panels := pyInsert st.panels (k : ℤ) "r",
        ratios := pyInsert st.ratios (k : ℤ) ratio,
        spaces := pyInsert st.spaces ((k : ℤ) - 1) space,
        spacesOrig := pyInsert st.spacesOrig ((k : ℤ) - 1) spaceOrig,
        dim := st.dim + 1 }
      = .ok ({ panels := pyInsert st.panels (k : ℤ) "r",
               ratios := pyInsert st.ratios (k : ℤ) ratio,
               spaces := listSet (listInsertAt st.spaces (k - 1) space) (k - 1)
                 (spaceOrig.getD space),
               spacesOrig := listSet (listInsertAt st.spacesOrig (k - 1) spaceOrig)
                 (k - 1) spaceOrig,
               dim := st.dim + 1 }, true, (k : ℤ)) := by
    have hklen2 : k ≠ (pyInsert st.panels (k : ℤ) "r").length := by
      rw [hlenPanels]
      omega
    simp [insertRowColumn, take_one_r, hcond2, hp2, hcur, hset1, hset2, hklen2]
  rw [hsecond]
  constructor
  · simp [Except.map, length_listSet, length_listInsertAt, hlenSpaces,
      hlenSpacesOrig, hspaces, hspacesOrig, hsp, hso]
  · simp only [Except.map, Except.ok.injEq]
    rw [hkk]
    rw [pyGet?_natCast _ (k - 1)
      (by rw [length_listSet, length_listInsertAt]; omega)]
    exact listNth?_set_self (spaceOrig.getD space)
      (listInsertAt st.spaces (k - 1) space) (k - 1)
      (by rw [length_listInsertAt]; omega)

/-- Witness for insert_panel_idempotent: a right panel appended to a
2-column grid at slot 2 twice; the second call leaves all dimensions at
their post-first-call values and reports the slot as existing. -/
theorem insert_panel_idempotent_witness :
    (insertRowColumn "r" 2 1 (1/5) none false
        { panels := ["", "", "r"], ratios := [1, 1, 1], spaces := [1/5, 1/5],
          spacesOrig := [none, none], dim := 3 }).map
        (fun r => (r.1.panels.length, r.1.ratios.length, r.1.spaces.length,
                   r.1.spacesOrig.length, r.1.dim, r.2.1))
      = .ok (3, 3, 2, 2, 3, true) := by
  have hfirst : insertRowColumn "r" ((2 : ℕ) : ℤ) 1 (1/5) none false twoColState
      = .ok ({ panels := ["", "", "r"], ratios := [1, 1, 1], spaces := [1/5, 1/5],
               spacesOrig := [none, none], dim := 3 }, false, ((2 : ℕ) : ℤ)) := by
    norm_num [insertRowColumn, take_one_r, twoColState, pyInsert, listInsertAt, units,
      show ¬("r" : String) = "" from by decide,
      show ¬(("r" : String) = "t" ∨ ("r" : String) = "l") from by decide]
  have h := insert_panel_idempotent twoColState 2 1 (1/5) none
      { panels := ["", "", "r"], ratios := [1, 1, 1], spaces := [1/5, 1/5],
        spacesOrig := [none, none], dim := 3 } false ((2 : ℕ) : ℤ)
      (by norm_num) (by norm_num [twoColState]) (by norm_num [twoColState])
      (by norm_num [twoColState]) (Or.inl (by norm_num [twoColState])) hfirst
  simpa using h.2.2.1
